import Mathlib

/-!
Verification of `gtsfm/densify/mvs_utils.py`: triangulation angles,
piecewise-Gaussian view weighting, homogenization, and voxel-grid
point-cloud simplification, modelled over the real numbers.
-/

namespace MvsUtils

/-- A 3D point or vector in world coordinates (`np.ndarray` of shape (3,)). -/
abbrev Pt := Fin 3 → ℝ

/-- A camera, reduced to the only capability the code uses:
`camera.pose().translation()`, its 3D center. -/
structure Camera where
  center : Pt

/-- Dot product of two 3-vectors (`np.multiply(u, v).sum()`). -/
def dot3 (u v : Pt) : ℝ := u 0 * v 0 + u 1 * v 1 + u 2 * v 2

/-- Euclidean norm of a 3-vector (`np.linalg.norm`). -/
noncomputable def norm3 (u : Pt) : ℝ := Real.sqrt (dot3 u u)

/-- Normalize a vector to unit length (`v / np.linalg.norm(v)`). -/
noncomputable def normalize3 (u : Pt) : Pt := fun i => u i / norm3 u

/-- `np.clip(x, lo, hi)`. -/
noncomputable def clip (x lo hi : ℝ) : ℝ := min (max x lo) hi

/-- `np.rad2deg` / `math.degrees`: multiply by 180 / pi. -/
noncomputable def rad2deg (x : ℝ) : ℝ := x * (180 / Real.pi)

/-- Modelled from the spec: gtsam's `Unit3` constructor, used by
`calculate_triangulation_angle_in_degrees` but not under `src/`; it wraps a
ray normalized to unit length. -/
noncomputable def unit3 (ray : Pt) : Pt := normalize3 ray

/-- Modelled from the spec:
`gtsfm.utils.geometry_comparisons.compute_relative_unit_translation_angle`
is not under `src/`; per the spec's single-point contract it returns
`degrees(arccos(clip(r1 . r2, -1, 1)))` for the two unit rays. -/
noncomputable def compute_relative_unit_translation_angle (u1 u2 : Pt) : ℝ :=
  rad2deg (Real.arccos (clip (dot3 u1 u2) (-1) 1))

/-- `calculate_triangulation_angle_in_degrees`: angle at `point_3d` between
the rays from the two camera centers, in degrees. -/
noncomputable def calculate_triangulation_angle_in_degrees
    (camera_1 camera_2 : Camera) (point_3d : Pt) : ℝ :=
  let camera_center_1 := camera_1.center
  let camera_center_2 := camera_2.center
  let ray_1 : Pt := fun i => point_3d i - camera_center_1 i
  let ray_2 : Pt := fun i => point_3d i - camera_center_2 i
  compute_relative_unit_translation_angle (unit3 ray_1) (unit3 ray_2)

/-- `calculate_triangulation_angles_in_degrees`: vectorized angle
computation, mirroring the numpy array pipeline step by step
(rays, per-row normalization, row-wise dot products, clip, arccos, rad2deg). -/
noncomputable def calculate_triangulation_angles_in_degrees
    (camera_1 camera_2 : Camera) (points_3d : List Pt) : List ℝ :=
  let camera_center_1 := camera_1.center
  let camera_center_2 := camera_2.center
  let rays1 := points_3d.map (fun p => fun i => p i - camera_center_1 i)
  let rays2 := points_3d.map (fun p => fun i => p i - camera_center_2 i)
  let rays1 := rays1.map normalize3
  let rays2 := rays2.map normalize3
  let dot_products := (List.zip rays1 rays2).map (fun rr => dot3 rr.1 rr.2)
  let dot_products := dot_products.map (fun x => clip x (-1) 1)
  let angles_rad := dot_products.map Real.arccos
  let angles_deg := angles_rad.map rad2deg
  angles_deg

/-- `piecewise_gaussian`: a Gaussian with spread `sigma_1` for
`theta <= theta_0` and `sigma_2` for `theta > theta_0`. -/
noncomputable def piecewise_gaussian (theta theta_0 sigma_1 sigma_2 : ℝ) : ℝ :=
  let sigma := if theta ≤ theta_0 then sigma_1 else sigma_2
  Real.exp (-((theta - theta_0) ^ 2) / (2 * sigma ^ 2))

/-- A numpy ndarray of reals: a shape together with row-major flat data. -/
structure NDArray where
  shape : List Nat
  data : List ℝ

/-- `cart_to_homogenous`: append a row of ones to a d x N matrix; raise a
`TypeError` when the input is not exactly two-dimensional. -/
def cart_to_homogenous (non_homogenous_coordinates : NDArray) :
    Except String NDArray :=
  match non_homogenous_coordinates.shape with
  | [d, n] =>
      Except.ok ⟨[d + 1, n], non_homogenous_coordinates.data ++ List.replicate n 1⟩
  | _ => Except.error "Input non-homogenous coordinates should be 2 dimensional"

/-- Arithmetic mean of a list of 3-vectors, componentwise. -/
noncomputable def mean3 (l : List Pt) : Pt :=
  fun i => (l.map (fun p => p i)).sum / l.length

/-- Modelled from the spec: the voxel key of a point, the floor of
position divided by `voxel_size`, per axis. -/
noncomputable def voxel_key (voxel_size : ℝ) (p : Pt) : Fin 3 → ℤ :=
  fun i => Int.floor (p i / voxel_size)

/-- `downsample_point_cloud`: for `voxel_size <= 0` return the inputs
unchanged (guard taken from the source). Modelled from the spec: the
positive-size branch delegates to `open3d_vis_utils` helpers and open3d's
`voxel_down_sample`, none of which are under `src/`; per the spec it buckets
points by `voxel_key` and emits one averaged point (position and color) per
occupied voxel. -/
noncomputable def downsample_point_cloud
    (points rgb : List Pt) (voxel_size : ℝ) : List Pt × List Pt :=
  if voxel_size ≤ 0 then (points, rgb)
  else
    let keys := (points.map (voxel_key voxel_size)).dedup
    let pairs := points.zip rgb
    (keys.map (fun k =>
        mean3 ((pairs.filter (fun pr => voxel_key voxel_size pr.1 = k)).map Prod.fst)),
     keys.map (fun k =>
        mean3 ((pairs.filter (fun pr => voxel_key voxel_size pr.1 = k)).map Prod.snd)))

/-- Modelled from the spec: `gtsfm.utils.ellipsoid.center_point_cloud` is
not under `src/`; per the spec it subtracts the centroid from every point. -/
noncomputable def center_point_cloud (points : List Pt) : List Pt :=
  let centroid := mean3 points
  points.map (fun p => fun i => p i - centroid i)

/-- Modelled from the spec: the smallest singular value of the N x 3
coordinate matrix (`gtsfm.utils.ellipsoid.get_right_singular_vectors` is not
under `src/`), characterized variationally: the square root of the infimum
of the squared image norms over unit direction vectors. -/
noncomputable def smallest_singular_value (points : List Pt) : ℝ :=
  Real.sqrt (sInf {q : ℝ | ∃ v : Pt, dot3 v v = 1 ∧
    q = (points.map (fun p => dot3 p v ^ 2)).sum})

/-- `estimate_minimum_voxel_size`: 0 for fewer than 2 points, otherwise the
smallest singular value of the centered cloud times `scale`. -/
noncomputable def estimate_minimum_voxel_size
    (points : List Pt) (scale : ℝ) : ℝ :=
  if points.length < 2 then 0
  else smallest_singular_value (center_point_cloud points) * scale

/-- Claim C5: `piecewise_gaussian` selects `sigma_1` when `theta <= theta_0`
and `sigma_2` when `theta > theta_0`, returning
`exp(-(theta - theta_0)^2 / (2 * sigma^2))`; with theta=15, theta_0=5,
sigma_1=1, sigma_2=10 the `sigma_2` branch yields a value strictly between 0
and 1, and with theta=5, theta_0=5 the result is 1. -/
theorem piecewise_gaussian_branches :
    (∀ theta theta_0 sigma_1 sigma_2 : ℝ, theta ≤ theta_0 →
      piecewise_gaussian theta theta_0 sigma_1 sigma_2
        = Real.exp (-((theta - theta_0) ^ 2) / (2 * sigma_1 ^ 2)))
    ∧ (∀ theta theta_0 sigma_1 sigma_2 : ℝ, theta_0 < theta →
      piecewise_gaussian theta theta_0 sigma_1 sigma_2
        = Real.exp (-((theta - theta_0) ^ 2) / (2 * sigma_2 ^ 2)))
    ∧ piecewise_gaussian 5 5 1 10 = 1
    ∧ 0 < piecewise_gaussian 15 5 1 10
    ∧ piecewise_gaussian 15 5 1 10 < 1 := by
  refine ⟨fun theta theta_0 s1 s2 h => ?_, fun theta theta_0 s1 s2 h => ?_,
    ?_, ?_, ?_⟩
  · simp [piecewise_gaussian, if_pos h]
  · simp [piecewise_gaussian, if_neg (not_le.mpr h)]
  · norm_num [piecewise_gaussian]
  · simp only [piecewise_gaussian]
    norm_num
    exact Real.exp_pos _
  · have h15 : ¬ ((15:ℝ) ≤ 5) := by norm_num
    simp only [piecewise_gaussian, if_neg h15]
    rw [Real.exp_lt_one_iff]
    norm_num

/-- Witness for C5: both branch equations evaluated at concrete inputs. -/
theorem piecewise_gaussian_branches_witness :
    piecewise_gaussian 3 5 1 10 = Real.exp (-(((3:ℝ) - 5) ^ 2) / (2 * 1 ^ 2))
    ∧ piecewise_gaussian 15 5 1 10
        = Real.exp (-(((15:ℝ) - 5) ^ 2) / (2 * 10 ^ 2)) :=
  ⟨piecewise_gaussian_branches.1 3 5 1 10 (by norm_num),
   piecewise_gaussian_branches.2.1 15 5 1 10 (by norm_num)⟩

/-- Claim C6: for positive sigmas, `piecewise_gaussian` is exactly 1 at
`theta = theta_0`, strictly decreasing in the distance to `theta_0` on each
side, and always lies in (0, 1]. -/
theorem piecewise_gaussian_unimodal (theta_0 sigma_1 sigma_2 : ℝ)
    (h1 : 0 < sigma_1) (h2 : 0 < sigma_2) :
    piecewise_gaussian theta_0 theta_0 sigma_1 sigma_2 = 1
    ∧ (∀ a b : ℝ, a < b → b ≤ theta_0 →
        piecewise_gaussian a theta_0 sigma_1 sigma_2
          < piecewise_gaussian b theta_0 sigma_1 sigma_2)
    ∧ (∀ a b : ℝ, theta_0 ≤ a → a < b →
        piecewise_gaussian b theta_0 sigma_1 sigma_2
          < piecewise_gaussian a theta_0 sigma_1 sigma_2)
    ∧ (∀ theta : ℝ, 0 < piecewise_gaussian theta theta_0 sigma_1 sigma_2
        ∧ piecewise_gaussian theta theta_0 sigma_1 sigma_2 ≤ 1) := by
  have key : ∀ s x y : ℝ, 0 < s → y < x →
      Real.exp (-x / (2 * s ^ 2)) < Real.exp (-y / (2 * s ^ 2)) := by
    intro s x y hs hxy
    rw [Real.exp_lt_exp, neg_div, neg_div, neg_lt_neg_iff]
    gcongr
  refine ⟨?_, ?_, ?_, ?_⟩
  · norm_num [piecewise_gaussian]
  · intro a b hab hb
    rw [(by simp [piecewise_gaussian, if_pos (hab.le.trans hb)] : piecewise_gaussian a theta_0 sigma_1 sigma_2 = Real.exp (-((a - theta_0) ^ 2) / (2 * sigma_1 ^ 2))),
        (by simp [piecewise_gaussian, if_pos hb] : piecewise_gaussian b theta_0 sigma_1 sigma_2 = Real.exp (-((b - theta_0) ^ 2) / (2 * sigma_1 ^ 2)))]
    apply key _ _ _ h1
    have e1 : (b - theta_0) ^ 2 = (theta_0 - b) ^ 2 := by ring
    have e2 : (a - theta_0) ^ 2 = (theta_0 - a) ^ 2 := by ring
    rw [e1, e2]
    apply pow_lt_pow_left (by linarith) (by linarith)
    norm_num
  · intro a b ha hab
    rcases eq_or_lt_of_le ha with rfl | ha'
    · have hb : ¬ (b ≤ theta_0) := not_le.mpr hab
      rw [(by norm_num [piecewise_gaussian] : piecewise_gaussian theta_0 theta_0 sigma_1 sigma_2 = 1),
          (by simp [piecewise_gaussian, if_neg hb] : piecewise_gaussian b theta_0 sigma_1 sigma_2 = Real.exp (-((b - theta_0) ^ 2) / (2 * sigma_2 ^ 2)))]
      rw [Real.exp_lt_one_iff, neg_div, neg_lt_zero]
      have hba : (0:ℝ) < (b - theta_0) ^ 2 := pow_pos (sub_pos.mpr hab) 2
      exact div_pos hba (by positivity)
    · have hna : ¬ (a ≤ theta_0) := not_le.mpr ha'
      have hnb : ¬ (b ≤ theta_0) := not_le.mpr (ha'.trans hab)
      rw [(by simp [piecewise_gaussian, if_neg hna] : piecewise_gaussian a theta_0 sigma_1 sigma_2 = Real.exp (-((a - theta_0) ^ 2) / (2 * sigma_2 ^ 2))),
          (by simp [piecewise_gaussian, if_neg hnb] : piecewise_gaussian b theta_0 sigma_1 sigma_2 = Real.exp (-((b - theta_0) ^ 2) / (2 * sigma_2 ^ 2)))]
      apply key _ _ _ h2
      apply pow_lt_pow_left (by linarith) (by linarith)
      norm_num
  · intro theta
    by_cases h : theta ≤ theta_0
    · simp only [piecewise_gaussian, if_pos h]
      refine ⟨Real.exp_pos _, Real.exp_le_one_iff.mpr ?_⟩
      rw [neg_div, neg_nonpos]
      positivity
    · simp only [piecewise_gaussian, if_neg h]
      refine ⟨Real.exp_pos _, Real.exp_le_one_iff.mpr ?_⟩
      rw [neg_div, neg_nonpos]
      positivity

/-- Witness for C6: with theta_0 = 5, sigma_1 = 1, sigma_2 = 10, the weight
at the target angle is exactly 1. -/
theorem piecewise_gaussian_unimodal_witness :
    piecewise_gaussian 5 5 1 10 = 1 :=
  (piecewise_gaussian_unimodal 5 1 10 one_pos (by norm_num)).1

/-- Claim C9: for any non-positive voxel size, downsampling returns its
inputs unchanged. -/
theorem downsample_point_cloud_noop (points rgb : List Pt) (voxel_size : ℝ)
    (h : voxel_size ≤ 0) :
    downsample_point_cloud points rgb voxel_size = (points, rgb) := by
  simp only [downsample_point_cloud, if_pos h]

/-- Witness for C9 at voxel size 0 and a one-point cloud. -/
theorem downsample_point_cloud_noop_witness :
    downsample_point_cloud [fun _ => 1] [fun _ => 2] 0
      = ([fun _ => 1], [fun _ => 2]) :=
  downsample_point_cloud_noop [fun _ => 1] [fun _ => 2] 0 le_rfl

/-- Claim C7: on a d x N matrix, `cart_to_homogenous` returns a (d+1) x N
matrix whose flat data is the input followed by a row of N ones; taking the
first d*N entries recovers the input exactly and the appended row is all
ones of length N. -/
theorem cart_to_homogenous_roundtrip (d n : Nat) (data : List ℝ)
    (hlen : data.length = d * n) :
    cart_to_homogenous ⟨[d, n], data⟩
      = Except.ok ⟨[d + 1, n], data ++ List.replicate n 1⟩
    ∧ (data ++ List.replicate n (1:ℝ)).length = (d + 1) * n
    ∧ (data ++ List.replicate n (1:ℝ)).take (d * n) = data
    ∧ (data ++ List.replicate n (1:ℝ)).drop (d * n) = List.replicate n 1 := by
  refine ⟨rfl, ?_, ?_, ?_⟩
  · simp [hlen]
    ring
  · rw [← hlen]
    exact List.take_left data _
  · rw [← hlen]
    exact List.drop_left data _

/-- Witness for C7 on the 1 x 2 matrix with data [3, 4]. -/
theorem cart_to_homogenous_roundtrip_witness :
    cart_to_homogenous ⟨[1, 2], [3, 4]⟩
      = Except.ok ⟨[1 + 1, 2], [(3:ℝ), 4] ++ List.replicate 2 1⟩
    ∧ ([(3:ℝ), 4] ++ List.replicate 2 (1:ℝ)).length = (1 + 1) * 2
    ∧ ([(3:ℝ), 4] ++ List.replicate 2 (1:ℝ)).take (1 * 2) = [(3:ℝ), 4]
    ∧ ([(3:ℝ), 4] ++ List.replicate 2 (1:ℝ)).drop (1 * 2)
        = List.replicate 2 1 :=
  cart_to_homogenous_roundtrip 1 2 [3, 4] rfl

/-- Claim C8: `cart_to_homogenous` raises the shape error exactly when the
input array is not two-dimensional; every 2-D shape succeeds. -/
theorem cart_to_homogenous_error_iff (a : NDArray) :
    (∃ e, cart_to_homogenous a = Except.error e) ↔ a.shape.length ≠ 2 := by
  obtain ⟨shape, data⟩ := a
  rcases shape with _ | ⟨d, _ | ⟨n, _ | ⟨x, t⟩⟩⟩ <;>
    simp [cart_to_homogenous]

/-- The numpy pipeline of the batched angle computation collapses to one
map of the per-point formula over the batch. -/
theorem angles_eq_map (camera_1 camera_2 : Camera) (points_3d : List Pt) :
    calculate_triangulation_angles_in_degrees camera_1 camera_2 points_3d
      = points_3d.map (fun p =>
          rad2deg (Real.arccos (clip (dot3
            (normalize3 (fun i => p i - camera_1.center i))
            (normalize3 (fun i => p i - camera_2.center i))) (-1) 1))) := by
  simp only [calculate_triangulation_angles_in_degrees, List.map_map,
    List.zip_map', List.map_map]
  rfl

/-- The batched angle computation returns one angle per input point. -/
theorem angles_length (camera_1 camera_2 : Camera) (points_3d : List Pt) :
    (calculate_triangulation_angles_in_degrees camera_1 camera_2
      points_3d).length = points_3d.length := by
  rw [angles_eq_map]
  exact List.length_map _ _

/-- Any clipped-arccos angle converted to degrees lies in [0, 180]. -/
theorem rad2deg_arccos_mem (x : ℝ) :
    0 ≤ rad2deg (Real.arccos x) ∧ rad2deg (Real.arccos x) ≤ 180 := by
  have hpi := Real.pi_pos
  constructor
  · exact mul_nonneg (Real.arccos_nonneg x) (by positivity)
  · calc rad2deg (Real.arccos x) = Real.arccos x * (180 / Real.pi) := rfl
    _ ≤ Real.pi * (180 / Real.pi) :=
        mul_le_mul_of_nonneg_right (Real.arccos_le_pi x) (by positivity)
    _ = 180 := by field_simp

/-- Claim C1: the batched evaluator returns, at each index independently,
`degrees(arccos(clip(r1_hat . r2_hat, -1, 1)))` for the unit rays from the
two camera centers to that point, and (for points not coincident with either
center) every returned angle lies in [0, 180]. -/
theorem triangulation_angles_formula_and_range
    (camera_1 camera_2 : Camera) (points_3d : List Pt) (i : Nat)
    (hi : i < points_3d.length) :
    ∃ h : i < (calculate_triangulation_angles_in_degrees camera_1 camera_2
        points_3d).length,
      (calculate_triangulation_angles_in_degrees camera_1 camera_2
          points_3d).get ⟨i, h⟩
        = rad2deg (Real.arccos (clip (dot3
            (normalize3 (fun j => points_3d.get ⟨i, hi⟩ j - camera_1.center j))
            (normalize3 (fun j => points_3d.get ⟨i, hi⟩ j - camera_2.center j)))
            (-1) 1))
      ∧ (points_3d.get ⟨i, hi⟩ ≠ camera_1.center →
          points_3d.get ⟨i, hi⟩ ≠ camera_2.center →
          0 ≤ (calculate_triangulation_angles_in_degrees camera_1 camera_2
              points_3d).get ⟨i, h⟩
          ∧ (calculate_triangulation_angles_in_degrees camera_1 camera_2
              points_3d).get ⟨i, h⟩ ≤ 180) := by
  have h : i < (calculate_triangulation_angles_in_degrees camera_1 camera_2
      points_3d).length := by
    rw [angles_length]
    exact hi
  refine ⟨h, ?_, fun _ _ => ?_⟩
  · have := angles_eq_map camera_1 camera_2 points_3d
    rw [List.get_of_eq this, List.get_map]
  · have := angles_eq_map camera_1 camera_2 points_3d
    rw [List.get_of_eq this, List.get_map]
    exact rad2deg_arccos_mem _

/-- Witness for C1 at c1 = (0,0,0), c2 = (3,3,3), one point (1,1,1). -/
theorem triangulation_angles_formula_and_range_witness :
    ∃ h : 0 < (calculate_triangulation_angles_in_degrees ⟨fun _ => 0⟩
        ⟨fun _ => 3⟩ [fun _ => 1]).length,
      (calculate_triangulation_angles_in_degrees ⟨fun _ => 0⟩ ⟨fun _ => 3⟩
          [fun _ => 1]).get ⟨0, h⟩
        = rad2deg (Real.arccos (clip (dot3
            (normalize3 (fun j => ([fun _ => (1:ℝ)].get ⟨0, Nat.one_pos⟩ j
              - Camera.center ⟨fun _ => 0⟩ j)))
            (normalize3 (fun j => ([fun _ => (1:ℝ)].get ⟨0, Nat.one_pos⟩ j
              - Camera.center ⟨fun _ => 3⟩ j)))) (-1) 1))
      ∧ (([fun _ => (1:ℝ)].get ⟨0, Nat.one_pos⟩ ≠ Camera.center ⟨fun _ => 0⟩) →
          ([fun _ => (1:ℝ)].get ⟨0, Nat.one_pos⟩ ≠ Camera.center ⟨fun _ => 3⟩) →
          0 ≤ (calculate_triangulation_angles_in_degrees ⟨fun _ => 0⟩
              ⟨fun _ => 3⟩ [fun _ => 1]).get ⟨0, h⟩
          ∧ (calculate_triangulation_angles_in_degrees ⟨fun _ => 0⟩
              ⟨fun _ => 3⟩ [fun _ => 1]).get ⟨0, h⟩ ≤ 180) :=
  triangulation_angles_formula_and_range ⟨fun _ => 0⟩ ⟨fun _ => 3⟩
    [fun _ => 1] 0 Nat.one_pos

/-- Claim C2: at every index, the batched evaluator agrees with the
single-point evaluator applied to that point with the same two cameras
(exactly, in the real-number model). -/
theorem batched_matches_single
    (camera_1 camera_2 : Camera) (points_3d : List Pt) (i : Nat)
    (hi : i < points_3d.length) :
    ∃ h : i < (calculate_triangulation_angles_in_degrees camera_1 camera_2
        points_3d).length,
      (calculate_triangulation_angles_in_degrees camera_1 camera_2
          points_3d).get ⟨i, h⟩
        = calculate_triangulation_angle_in_degrees camera_1 camera_2
            (points_3d.get ⟨i, hi⟩) := by
  have h : i < (calculate_triangulation_angles_in_degrees camera_1 camera_2
      points_3d).length := by
    rw [angles_length]
    exact hi
  refine ⟨h, ?_⟩
  rw [List.get_of_eq (angles_eq_map camera_1 camera_2 points_3d), List.get_map]
  rfl

/-- Witness for C2: a one-element batch at c1 = (0,0,0), c2 = (3,3,3),
point (1,1,1). -/
theorem batched_matches_single_witness :
    ∃ h : 0 < (calculate_triangulation_angles_in_degrees ⟨fun _ => 0⟩
        ⟨fun _ => 3⟩ [fun _ => 1]).length,
      (calculate_triangulation_angles_in_degrees ⟨fun _ => 0⟩ ⟨fun _ => 3⟩
          [fun _ => 1]).get ⟨0, h⟩
        = calculate_triangulation_angle_in_degrees ⟨fun _ => 0⟩ ⟨fun _ => 3⟩
            ([fun _ => (1:ℝ)].get ⟨0, Nat.one_pos⟩) :=
  batched_matches_single ⟨fun _ => 0⟩ ⟨fun _ => 3⟩ [fun _ => 1] 0 Nat.one_pos

/-- The dot product of 3-vectors is commutative. -/
theorem dot3_comm (u v : Pt) : dot3 u v = dot3 v u := by
  simp only [dot3]
  ring

/-- Claim C10: triangulation angle computation is symmetric under swapping
the two cameras, in both the single-point and batched forms, for points not
coincident with either camera center. -/
theorem triangulation_angle_symmetric
    (camera_1 camera_2 : Camera) (point_3d : Pt) (points_3d : List Pt)
    (h1 : point_3d ≠ camera_1.center) (h2 : point_3d ≠ camera_2.center)
    (hp : ∀ p ∈ points_3d, p ≠ camera_1.center ∧ p ≠ camera_2.center) :
    calculate_triangulation_angle_in_degrees camera_1 camera_2 point_3d
      = calculate_triangulation_angle_in_degrees camera_2 camera_1 point_3d
    ∧ calculate_triangulation_angles_in_degrees camera_1 camera_2 points_3d
      = calculate_triangulation_angles_in_degrees camera_2 camera_1
          points_3d := by
  constructor
  · simp only [calculate_triangulation_angle_in_degrees,
      compute_relative_unit_translation_angle]
    rw [dot3_comm]
  · rw [angles_eq_map, angles_eq_map]
    apply List.map_congr_left
    intro p _
    rw [dot3_comm]

/-- Witness for C10 at c1 = (0,0,0), c2 = (3,3,3), point (1,1,1) and the
one-element batch of the same point. -/
theorem triangulation_angle_symmetric_witness :
    calculate_triangulation_angle_in_degrees ⟨fun _ => 0⟩ ⟨fun _ => 3⟩
        (fun _ => 1)
      = calculate_triangulation_angle_in_degrees ⟨fun _ => 3⟩ ⟨fun _ => 0⟩
          (fun _ => 1)
    ∧ calculate_triangulation_angles_in_degrees ⟨fun _ => 0⟩ ⟨fun _ => 3⟩
        [fun _ => 1]
      = calculate_triangulation_angles_in_degrees ⟨fun _ => 3⟩ ⟨fun _ => 0⟩
          [fun _ => 1] := by
  have hne0 : (fun _ => (1:ℝ)) ≠ Camera.center ⟨fun _ => 0⟩ :=
    fun h => one_ne_zero (congrFun h 0)
  have hne3 : (fun _ => (1:ℝ)) ≠ Camera.center ⟨fun _ => 3⟩ :=
    fun h => by
      have := congrFun h 0
      norm_num at this
  have hswap := triangulation_angle_symmetric ⟨fun _ => 0⟩ ⟨fun _ => 3⟩
    (fun _ => 1) [fun _ => 1] hne0 hne3 (by
      intro p hpmem
      rw [List.mem_singleton] at hpmem
      subst hpmem
      exact ⟨hne0, hne3⟩)
  exact ⟨hswap.1.trans (by rfl), hswap.2.trans (by rfl)⟩

/-- The componentwise mean of K copies of a point is that point. -/
theorem mean3_replicate (K : Nat) (hK : K ≠ 0) (p : Pt) :
    mean3 (List.replicate K p) = p := by
  funext i
  simp only [mean3, List.map_replicate, List.sum_replicate, nsmul_eq_mul,
    List.length_replicate]
  exact mul_div_cancel_left₀ _ (Nat.cast_ne_zero.mpr hK)

/-- Claim C3: for a positive voxel size, downsampling buckets each point by
the floor of its position over the voxel size, emits exactly one output
point per occupied voxel (position and color both the mean of that voxel's
members), output positions and colors have the same length M with M <= N,
equality exactly when all points occupy distinct voxels, and K duplicates
collapse to one output equal to their mean. -/
theorem downsample_point_cloud_voxel_grid
    (points rgb : List Pt) (voxel_size : ℝ)
    (hv : 0 < voxel_size) (hlen : points.length = rgb.length) :
    (downsample_point_cloud points rgb voxel_size).1
      = ((points.map (voxel_key voxel_size)).dedup).map (fun k =>
          mean3 (((points.zip rgb).filter
            (fun pr => voxel_key voxel_size pr.1 = k)).map Prod.fst))
    ∧ (downsample_point_cloud points rgb voxel_size).2
      = ((points.map (voxel_key voxel_size)).dedup).map (fun k =>
          mean3 (((points.zip rgb).filter
            (fun pr => voxel_key voxel_size pr.1 = k)).map Prod.snd))
    ∧ (downsample_point_cloud points rgb voxel_size).1.length
      = (downsample_point_cloud points rgb voxel_size).2.length
    ∧ (downsample_point_cloud points rgb voxel_size).1.length ≤ points.length
    ∧ ((downsample_point_cloud points rgb voxel_size).1.length = points.length
        ↔ (points.map (voxel_key voxel_size)).Nodup)
    ∧ ((points.map (voxel_key voxel_size)).dedup).Nodup
    ∧ (∀ k, k ∈ (points.map (voxel_key voxel_size)).dedup
        ↔ k ∈ points.map (voxel_key voxel_size))
    ∧ (∀ K : Nat, 0 < K → ∀ p c : Pt,
        downsample_point_cloud (List.replicate K p) (List.replicate K c)
          voxel_size = ([p], [c])) := by
  have hnle : ¬ (voxel_size ≤ 0) := not_le.mpr hv
  have hfst : (downsample_point_cloud points rgb voxel_size).1
      = ((points.map (voxel_key voxel_size)).dedup).map (fun k =>
          mean3 (((points.zip rgb).filter
            (fun pr => voxel_key voxel_size pr.1 = k)).map Prod.fst)) := by
    simp only [downsample_point_cloud, if_neg hnle]
  have hsnd : (downsample_point_cloud points rgb voxel_size).2
      = ((points.map (voxel_key voxel_size)).dedup).map (fun k =>
          mean3 (((points.zip rgb).filter
            (fun pr => voxel_key voxel_size pr.1 = k)).map Prod.snd)) := by
    simp only [downsample_point_cloud, if_neg hnle]
  have hkeylen : ((points.map (voxel_key voxel_size)).dedup).length
      ≤ points.length := by
    calc ((points.map (voxel_key voxel_size)).dedup).length
        ≤ (points.map (voxel_key voxel_size)).length :=
          (List.dedup_sublist _).length_le
    _ = points.length := List.length_map _ _
  refine ⟨hfst, hsnd, ?_, ?_, ?_, List.nodup_dedup _,
    fun k => List.mem_dedup, ?_⟩
  · rw [hfst, hsnd, List.length_map, List.length_map]
  · rw [hfst, List.length_map]
    exact hkeylen
  · rw [hfst, List.length_map]
    constructor
    · intro heq
      have hlen2 : ((points.map (voxel_key voxel_size)).dedup).length
          = (points.map (voxel_key voxel_size)).length := by
        rw [List.length_map]
        exact heq
      have := (List.dedup_sublist
        (points.map (voxel_key voxel_size))).eq_of_length hlen2
      rw [← this]
      exact List.nodup_dedup _
    · intro hnd
      rw [List.dedup_eq_self.mpr hnd, List.length_map]
  · intro K hK p c
    have hKz : K ≠ 0 := Nat.pos_iff_ne_zero.mp hK
    simp only [downsample_point_cloud, if_neg hnle, List.map_replicate,
      List.replicate_dedup hKz, List.zip_replicate, Nat.min_self,
      List.map_cons, List.map_nil]
    rw [List.filter_replicate_of_pos (by simp)]
    simp only [List.map_replicate, mean3_replicate K hKz]

/-- Witness for C3: two coincident points with equal colors, voxel size 1,
collapse to one averaged output point. -/
theorem downsample_point_cloud_voxel_grid_witness :
    downsample_point_cloud (List.replicate 2 (fun _ => (1:ℝ)))
        (List.replicate 2 (fun _ => (2:ℝ))) 1
      = ([fun _ => 1], [fun _ => 2]) :=
  (downsample_point_cloud_voxel_grid (List.replicate 2 (fun _ => 1))
    (List.replicate 2 (fun _ => 2)) 1 one_pos rfl).2.2.2.2.2.2.2
    2 Nat.zero_lt_two (fun _ => 1) (fun _ => 2)

/-- Claim C4: voxel-size estimation returns exactly 0 when fewer than 2
points are given, and otherwise the smallest singular value of the
centroid-subtracted coordinate matrix multiplied by `scale`. -/
theorem estimate_minimum_voxel_size_cases (points : List Pt) (scale : ℝ) :
    (points.length < 2 ∧ estimate_minimum_voxel_size points scale = 0)
    ∨ (2 ≤ points.length ∧ estimate_minimum_voxel_size points scale
        = smallest_singular_value (center_point_cloud points) * scale) := by
  by_cases h : points.length < 2
  · exact Or.inl ⟨h, by simp only [estimate_minimum_voxel_size, if_pos h]⟩
  · exact Or.inr ⟨le_of_not_lt h,
      by simp only [estimate_minimum_voxel_size, if_neg h]⟩

end MvsUtils
